import Mathlib

/-!
Verification of the in-memory task-tracking model (`src/main.py`): the
entity hierarchy Task → Project → User and its query operations.

Embedding conventions:
* `datetime` timestamps are modelled as `Nat`; `Optional[datetime]` as
  `Option Nat`; `<` on datetimes is `<` on `Nat`.
* Python objects live on a heap: a `Task` object is addressed by a
  `TaskRef` (a `Nat`), and a `Heap` maps every reference to the current
  `Task` value.  Field reads go through the heap; in-place mutation of a
  task is `Heap.write`.  This makes the Python aliasing behaviour
  (methods returning the internal object vs. a copy) expressible.
* A method that mutates `self` and may raise becomes a function returning
  the post-state together with an optional error; since the `raise` in
  the source precedes every assignment, the post-state in the error case
  is the unchanged pre-state.
* `uuid.uuid4()` and `datetime.now()` are nondeterministic inputs, so
  fresh identifiers and current times are explicit parameters.
* Python list objects have identity as well: where the claim is about the
  object identity of a task list (the defensive copy handed out by the
  `tasks` property), `ListStore` models a store of mutable list objects,
  `ProjectObj` is the `Project` entity whose `_tasks` field holds a
  reference into that store, `append` writes the referenced cell in
  place, and `list(self._tasks)` allocates a fresh cell.

Everything lives in the `TaskTracker` namespace because core Lean already
has a `Task` type.
-/

namespace TaskTracker

/-- The `Task` entity: fields `_id`, `_title`, `_description`, `_is_done`,
`_priority`, `_due_date`, `_created_at`, `_completed_at` of the Python
class `Task`. -/
structure Task where
  id : String
  title : String
  description : String
  is_done : Bool
  priority : String
  due_date : Option Nat
  created_at : Nat
  completed_at : Option Nat
deriving DecidableEq, Repr

/-- `Task.ALLOWED_PRIORITIES = ("Low", "Medium", "High")`. -/
def ALLOWED_PRIORITIES : List String := ["Low", "Medium", "High"]

/-- The validation failure raised by `Task.__init__` and
`Task.set_priority` (`ValueError` carrying the offending priority). -/
inductive ValidationError where
  | invalidPriority (p : String)
deriving DecidableEq, Repr

/-- `Task.__init__(title, description, priority, due_date)`: validates the
priority first, then initialises the fields with a fresh identifier,
`is_done = False`, `created_at = now`, `completed_at = None`.  The fresh
id and the current time are passed in explicitly. -/
def Task.make (id title description priority : String)
    (due_date : Option Nat) (now : Nat) : Except ValidationError Task :=
  if priority ∈ ALLOWED_PRIORITIES then
    Except.ok
      { id := id, title := title, description := description,
        is_done := false, priority := priority, due_date := due_date,
        created_at := now, completed_at := none }
  else
    Except.error (ValidationError.invalidPriority priority)

/-- `Task.mark_as_done()`: `self._is_done = True; self._completed_at = datetime.now()`. -/
def Task.mark_as_done (now : Nat) (t : Task) : Task :=
  { t with is_done := true, completed_at := some now }

/-- `Task.change_description(new_description)`. -/
def Task.change_description (new_description : String) (t : Task) : Task :=
  { t with description := new_description }

/-- `Task.set_priority(new_priority)`: validates, then assigns.  Returns
the post-state and the raised error, if any; when the validation fails
the assignment is never reached, so the post-state is the pre-state. -/
def Task.set_priority (new_priority : String) (t : Task) :
    Task × Option ValidationError :=
  if new_priority ∈ ALLOWED_PRIORITIES then
    ({ t with priority := new_priority }, none)
  else
    (t, some (ValidationError.invalidPriority new_priority))

/-- `Task.update_due_date(new_due_date)`. -/
def Task.update_due_date (new_due_date : Option Nat) (t : Task) : Task :=
  { t with due_date := new_due_date }

/-- `Task.reopen()`: `self._is_done = False; self._completed_at = None`. -/
def Task.reopen (t : Task) : Task :=
  { t with is_done := false, completed_at := none }

/-- A reference to a `Task` object (Python object identity). -/
abbrev TaskRef := Nat

/-- The store of live `Task` objects: every reference reads to the
current value of the object it addresses. -/
abbrev Heap := TaskRef → Task

/-- In-place mutation of the task object at reference `r`. -/
def Heap.write (h : Heap) (r : TaskRef) (t : Task) : Heap :=
  fun x => if x = r then t else h x

/-- The `Project` entity: `_id`, `_title`, `_description`, `_created_at`,
and `_tasks`, the ordered list of owned task objects (references). -/
structure Project where
  id : String
  title : String
  description : String
  created_at : Nat
  tasks : List TaskRef
deriving DecidableEq, Repr

/-- `Project.add_task(task)`: `self._tasks.append(task)`. -/
def Project.add_task (r : TaskRef) (p : Project) : Project :=
  { p with tasks := p.tasks ++ [r] }

/-- The loop of `Project.remove_task`: scan the task list in order and
delete the first element whose `id` equals `task_id`; if none matches the
list is returned unchanged (the source merely prints a notice). -/
def removeFirstById (h : Heap) (task_id : String) : List TaskRef → List TaskRef
  | [] => []
  | r :: rs =>
    if (h r).id = task_id then rs else r :: removeFirstById h task_id rs

/-- `Project.remove_task(task_id)`. -/
def Project.remove_task (h : Heap) (task_id : String) (p : Project) : Project :=
  { p with tasks := removeFirstById h task_id p.tasks }

/-- `Project.get_tasks_by_status(is_done)`: list comprehension filtering
`self._tasks` by the done flag. -/
def Project.get_tasks_by_status (h : Heap) (flag : Bool) (p : Project) :
    List TaskRef :=
  p.tasks.filter (fun r => (h r).is_done == flag)

/-- `Project.get_task_by_id(task_id)`: linear scan over `self._tasks`,
returning the first task object whose `id` matches, else `None`. -/
def Project.get_task_by_id (h : Heap) (task_id : String) (p : Project) :
    Option TaskRef :=
  p.tasks.find? (fun r => (h r).id == task_id)

/-- The `User` entity: `_id`, `_username`, `_full_name`, `_email`,
`_created_at`, and `_projects`, the ordered list of owned projects. -/
structure User where
  id : String
  username : String
  full_name : String
  email : String
  created_at : Nat
  projects : List Project

/-- `User.create_project(title, description)`: constructs a `Project`
(fresh id and current time passed explicitly), appends it, returns it. -/
def User.create_project (pid title description : String) (now : Nat)
    (u : User) : Project × User :=
  let p : Project :=
    { id := pid, title := title, description := description,
      created_at := now, tasks := [] }
  (p, { u with projects := u.projects ++ [p] })

/-- `User.get_all_tasks()`: starts from an empty list and extends it with
each project's tasks, in project order. -/
def User.get_all_tasks (u : User) : List TaskRef :=
  u.projects.foldl (fun acc p => acc ++ p.tasks) []

/-- The filter condition of `User.get_overdue_tasks`:
`task.due_date is not None and not task.is_done and task.due_date < now`. -/
def overduePred (h : Heap) (now : Nat) (r : TaskRef) : Bool :=
  match (h r).due_date with
  | none => false
  | some d => !(h r).is_done && decide (d < now)

/-- `User.get_overdue_tasks()`: filters `get_all_tasks()` by the overdue
condition against the current time `now`. -/
def User.get_overdue_tasks (h : Heap) (now : Nat) (u : User) : List TaskRef :=
  (User.get_all_tasks u).filter (overduePred h now)

/-- `User.get_tasks_by_priority(priority)`: list comprehension filtering
`get_all_tasks()` by exact priority equality. -/
def User.get_tasks_by_priority (h : Heap) (priority : String) (u : User) :
    List TaskRef :=
  (User.get_all_tasks u).filter (fun r => (h r).priority == priority)

/-! ### List objects with identity (for the defensive copy of `tasks`) -/

/-- A reference to a Python list object. -/
abbrev ListRef := Nat

/-- A store of mutable Python list objects holding task references:
`cells` gives the current contents of each allocated list object, in
allocation order. -/
structure ListStore where
  cells : List (List TaskRef)
deriving DecidableEq, Repr

/-- Read the current contents of the list object at `lr`. -/
def ListStore.read (s : ListStore) (lr : ListRef) : List TaskRef :=
  s.cells.getD lr []

/-- In-place mutation of the list object at `lr`: the caller replaces its
contents (covers `append`, `del`, reordering — any list mutation). -/
def ListStore.write (s : ListStore) (lr : ListRef) (v : List TaskRef) : ListStore :=
  ⟨s.cells.set lr v⟩

/-- Allocate a fresh list object with contents `v` and return its
reference: what `list(...)` does in the source. -/
def ListStore.alloc (s : ListStore) (v : List TaskRef) : ListRef × ListStore :=
  (s.cells.length, ⟨s.cells ++ [v]⟩)

/-- The `Project` entity under explicit list-object semantics: the same
fields as `Project`, but `_tasks` holds a reference to a mutable list
object in a `ListStore`.  Used where the object identity of the task
list matters. -/
structure ProjectObj where
  id : String
  title : String
  description : String
  created_at : Nat
  tasks : ListRef
deriving DecidableEq, Repr

/-- `Project.add_task(task)` under list-object semantics:
`self._tasks.append(task)` mutates the internal list object in place. -/
def ProjectObj.add_task (s : ListStore) (r : TaskRef) (p : ProjectObj) : ListStore :=
  ListStore.write s p.tasks (ListStore.read s p.tasks ++ [r])

/-- The `tasks` property under list-object semantics:
`return list(self._tasks)` allocates a fresh list object with the same
contents as the internal one and returns a reference to it. -/
def ProjectObj.tasks_copy (s : ListStore) (p : ProjectObj) : ListRef × ListStore :=
  ListStore.alloc s (ListStore.read s p.tasks)

/-- Iterated `Project.add_task`: adds the given tasks in order. -/
def addTasks (s : ListStore) (p : ProjectObj) (rs : List TaskRef) : ListStore :=
  rs.foldl (fun s r => ProjectObj.add_task s r p) s

/-! ### Concrete fixtures (used by witness theorems) -/

/-- A concrete task: priority `High`, due at time 5, not done. -/
def tA : Task :=
  { id := "a", title := "T1", description := "D1", is_done := false,
    priority := "High", due_date := some 5, created_at := 0,
    completed_at := none }

/-- A concrete task: priority `Low`, no due date, not done. -/
def tB : Task :=
  { id := "b", title := "T2", description := "D2", is_done := false,
    priority := "Low", due_date := none, created_at := 0,
    completed_at := none }

/-- A concrete heap: reference 0 holds `tA`, every other reference `tB`. -/
def exHeap : Heap := fun r => if r = 0 then tA else tB

/-- A concrete project owning the tasks at references 0 and 1. -/
def exProject : Project :=
  { id := "p1", title := "P1", description := "", created_at := 0,
    tasks := [0, 1] }

/-- A concrete list store with a single allocated, empty list object. -/
def exStore : ListStore := ⟨[[]]⟩

/-- A concrete project (list-object semantics) whose internal task list
is the empty list object at reference 0 of `exStore`. -/
def exProjectObj : ProjectObj :=
  { id := "p2", title := "P2", description := "", created_at := 0,
    tasks := 0 }

/-- A concrete user owning `exProject`. -/
def exUser : User :=
  { id := "u", username := "jdoe", full_name := "John Doe",
    email := "jdoe at example.com", created_at := 0,
    projects := [exProject] }

/-! ### General lemmas about the embedding -/

theorem foldl_append_tasks (l : List Project) (acc : List TaskRef) :
    l.foldl (fun a p => a ++ p.tasks) acc = acc ++ (l.map Project.tasks).flatten := by
  induction l generalizing acc with
  | nil => simp
  | cons p ps ih => simp [List.foldl_cons, ih, List.append_assoc]

theorem get_all_tasks_eq_flatten (u : User) :
    User.get_all_tasks u = (u.projects.map Project.tasks).flatten := by
  simp [User.get_all_tasks, foldl_append_tasks]

theorem mem_get_all_tasks_of_mem {u : User} {p : Project} {r : TaskRef}
    (hp : p ∈ u.projects) (hr : r ∈ p.tasks) : r ∈ User.get_all_tasks u := by
  rw [get_all_tasks_eq_flatten, List.mem_flatten]
  exact ⟨p.tasks, List.mem_map_of_mem Project.tasks hp, hr⟩

theorem reopen_iter_clears (m : Nat) (t : Task) :
    (Task.reopen^[m] (Task.reopen t)).is_done = false ∧
    (Task.reopen^[m] (Task.reopen t)).completed_at = none := by
  induction m generalizing t with
  | zero => exact ⟨rfl, rfl⟩
  | succ k ih =>
    rw [Function.iterate_succ_apply]
    exact ih (Task.reopen t)

theorem removeFirstById_first (h : Heap) (tid : String) :
    ∀ (l1 : List TaskRef) (r : TaskRef) (l2 : List TaskRef),
      (∀ r' ∈ l1, (h r').id ≠ tid) → (h r).id = tid →
      removeFirstById h tid (l1 ++ r :: l2) = l1 ++ l2 := by
  intro l1
  induction l1 with
  | nil =>
    intro r l2 _ hr
    simp [removeFirstById, hr]
  | cons a as ih =>
    intro r l2 hno hr
    have ha : (h a).id ≠ tid := hno a (List.mem_cons_self a as)
    simp only [List.cons_append, removeFirstById, List.append_eq, if_neg ha]
    rw [ih r l2 (fun r' hr' => hno r' (List.mem_cons_of_mem a hr')) hr]

theorem removeFirstById_no_match (h : Heap) (tid : String) :
    ∀ l : List TaskRef, (∀ r ∈ l, (h r).id ≠ tid) →
      removeFirstById h tid l = l := by
  intro l
  induction l with
  | nil => intro _; rfl
  | cons a as ih =>
    intro hno
    have ha : (h a).id ≠ tid := hno a (List.mem_cons_self a as)
    simp only [removeFirstById, if_neg ha]
    rw [ih (fun r hr => hno r (List.mem_cons_of_mem a hr))]

theorem getD_set_same {α : Type} (d : α) :
    ∀ (l : List α) (i : Nat) (v : α), i < l.length → (l.set i v).getD i d = v := by
  intro l
  induction l with
  | nil => intro i v h; exact absurd h (Nat.not_lt_zero i)
  | cons a as ih =>
    intro i v h
    cases i with
    | zero => rfl
    | succ j => exact ih j v (Nat.lt_of_succ_lt_succ h)

theorem getD_set_other {α : Type} (d : α) :
    ∀ (l : List α) (j i : Nat) (v : α), i ≠ j → (l.set j v).getD i d = l.getD i d := by
  intro l
  induction l with
  | nil => intro j i v _; rfl
  | cons a as ih =>
    intro j i v hne
    cases j with
    | zero =>
      cases i with
      | zero => exact absurd rfl hne
      | succ k => rfl
    | succ jj =>
      cases i with
      | zero => rfl
      | succ k => exact ih jj k v (fun hh => hne (congrArg Nat.succ hh))

theorem getD_append_front {α : Type} (d : α) :
    ∀ (l l2 : List α) (i : Nat), i < l.length → (l ++ l2).getD i d = l.getD i d := by
  intro l
  induction l with
  | nil => intro l2 i h; exact absurd h (Nat.not_lt_zero i)
  | cons a as ih =>
    intro l2 i h
    cases i with
    | zero => rfl
    | succ j => exact ih l2 j (Nat.lt_of_succ_lt_succ h)

theorem getD_concat_last {α : Type} (d : α) :
    ∀ (l : List α) (v : α), (l ++ [v]).getD l.length d = v := by
  intro l
  induction l with
  | nil => intro v; rfl
  | cons a as ih => intro v; exact ih v

theorem ListStore.read_write_self (s : ListStore) (lr : ListRef)
    (v : List TaskRef) (hv : lr < s.cells.length) :
    (ListStore.write s lr v).read lr = v :=
  getD_set_same [] s.cells lr v hv

theorem ListStore.read_write_other (s : ListStore) (lr lr2 : ListRef)
    (v : List TaskRef) (hne : lr2 ≠ lr) :
    (ListStore.write s lr v).read lr2 = s.read lr2 :=
  getD_set_other [] s.cells lr lr2 v hne

theorem ListStore.write_length (s : ListStore) (lr : ListRef)
    (v : List TaskRef) :
    (ListStore.write s lr v).cells.length = s.cells.length := by
  simp [ListStore.write]

theorem addTasks_read (p : ProjectObj) (rs : List TaskRef) :
    ∀ s : ListStore, p.tasks < s.cells.length →
      (addTasks s p rs).read p.tasks = s.read p.tasks ++ rs ∧
      (addTasks s p rs).cells.length = s.cells.length := by
  induction rs with
  | nil => intro s _; exact ⟨(List.append_nil _).symm, rfl⟩
  | cons r rest ih =>
    intro s hv
    have hlen : (ProjectObj.add_task s r p).cells.length = s.cells.length :=
      ListStore.write_length s p.tasks (ListStore.read s p.tasks ++ [r])
    have hv' : p.tasks < (ProjectObj.add_task s r p).cells.length := hlen ▸ hv
    have hread : (ProjectObj.add_task s r p).read p.tasks
        = s.read p.tasks ++ [r] :=
      ListStore.read_write_self s p.tasks (s.read p.tasks ++ [r]) hv
    obtain ⟨h1, h2⟩ := ih (ProjectObj.add_task s r p) hv'
    constructor
    · show (addTasks (ProjectObj.add_task s r p) p rest).read p.tasks
        = s.read p.tasks ++ r :: rest
      rw [h1, hread, List.append_assoc]
      rfl
    · show (addTasks (ProjectObj.add_task s r p) p rest).cells.length
        = s.cells.length
      rw [h2, hlen]

/-! ### Claim theorems -/

/-- Claim C3: `get_all_tasks()` returns exactly the concatenation of the
projects' task sequences, in project-then-task order; in particular for
projects `[P1, P2]` with tasks `[t1, t2]` and `[t3]` it returns
`[t1, t2, t3]`. -/
theorem get_all_tasks_flatten_spec (u : User) :
    User.get_all_tasks u = (u.projects.map Project.tasks).flatten :=
  get_all_tasks_eq_flatten u

/-- Claim C7: `mark_as_done()` sets `is_done = True` and
`completed_at = now`; a repeated call on an already-done task succeeds and
simply overwrites `completed_at` with the latest timestamp. -/
theorem mark_as_done_spec (t : Task) (now : Nat) :
    (Task.mark_as_done now t).is_done = true ∧
    (Task.mark_as_done now t).completed_at = some now ∧
    ∀ now2 : Nat,
      (Task.mark_as_done now2 (Task.mark_as_done now t)).is_done = true ∧
      (Task.mark_as_done now2 (Task.mark_as_done now t)).completed_at = some now2 := by
  refine ⟨rfl, rfl, fun now2 => ⟨rfl, rfl⟩⟩

/-- Claim C1: for any state and fixed current time `now`,
`get_overdue_tasks()` contains a task `r` iff `r` is in
`get_all_tasks()`, its `due_date` is set to some `d` with `d < now`, and
`is_done` is false; and after `mark_as_done()` on `r` the task no longer
appears. -/
theorem get_overdue_tasks_spec (h : Heap) (now : Nat) (u : User) (r : TaskRef) :
    (r ∈ User.get_overdue_tasks h now u ↔
      r ∈ User.get_all_tasks u ∧
      ∃ d, (h r).due_date = some d ∧ (h r).is_done = false ∧ d < now) ∧
    ∀ now2 : Nat,
      r ∉ User.get_overdue_tasks
        (Heap.write h r (Task.mark_as_done now2 (h r))) now u := by
  constructor
  · rw [User.get_overdue_tasks, List.mem_filter]
    cases hd : (h r).due_date with
    | none => simp [overduePred, hd]
    | some d => simp [overduePred, hd]
  · intro now2 hmem
    rw [User.get_overdue_tasks, List.mem_filter] at hmem
    have hpred := hmem.2
    cases hd : (h r).due_date with
    | none =>
      simp [overduePred, Heap.write, Task.mark_as_done, hd] at hpred
    | some d =>
      simp [overduePred, Heap.write, Task.mark_as_done, hd] at hpred

/-- Claim C1 witness: in the concrete state, the not-done task at
reference 0 with `due_date = 5 < 10` is overdue, and after marking it
done it is not. -/
theorem get_overdue_tasks_witness :
    0 ∈ User.get_overdue_tasks exHeap 10 exUser ∧
    0 ∉ User.get_overdue_tasks
      (Heap.write exHeap 0 (Task.mark_as_done 12 (exHeap 0))) 10 exUser :=
  ⟨(get_overdue_tasks_spec exHeap 10 exUser 0).1.mpr
      ⟨by decide, 5, by decide, by decide, by decide⟩,
   (get_overdue_tasks_spec exHeap 10 exUser 0).2 12⟩

/-- Claim C2: for every priority outside the allowed set (Low, Medium, High),
construction fails with the validation error, and `set_priority` fails
with the validation error while leaving the task's entire state (its
priority included) unchanged. -/
theorem priority_validation_spec (p : String) (hp : p ∉ ALLOWED_PRIORITIES) :
    (∀ (id title descr : String) (dd : Option Nat) (now : Nat),
      Task.make id title descr p dd now =
        Except.error (ValidationError.invalidPriority p)) ∧
    (∀ t : Task,
      Task.set_priority p t = (t, some (ValidationError.invalidPriority p))) := by
  constructor
  · intro id title descr dd now
    simp [Task.make, hp]
  · intro t
    simp [Task.set_priority, hp]

/-- Claim C2 witness: the invalid priority `Urgent` makes construction
fail and makes `set_priority` fail leaving the task `tA` unchanged. -/
theorem priority_validation_witness :
    Task.make "i" "T" "D" "Urgent" none 0 =
      Except.error (ValidationError.invalidPriority "Urgent") ∧
    Task.set_priority "Urgent" tA =
      (tA, some (ValidationError.invalidPriority "Urgent")) :=
  ⟨(priority_validation_spec "Urgent" (by decide)).1 "i" "T" "D" none 0,
   (priority_validation_spec "Urgent" (by decide)).2 tA⟩

/-- Claim C4: `remove_task(id)` removes exactly the first task whose id
matches, keeping the remaining tasks in their original relative order;
when no task matches, the project is left entirely unchanged. -/
theorem remove_task_spec :
    (∀ (h : Heap) (tid : String) (p : Project) (l1 l2 : List TaskRef) (r : TaskRef),
      p.tasks = l1 ++ r :: l2 →
      (∀ r' ∈ l1, (h r').id ≠ tid) → (h r).id = tid →
      Project.remove_task h tid p = { p with tasks := l1 ++ l2 }) ∧
    (∀ (h : Heap) (tid : String) (p : Project),
      (∀ r ∈ p.tasks, (h r).id ≠ tid) → Project.remove_task h tid p = p) := by
  constructor
  · intro h tid p l1 l2 r hp hno hr
    rw [Project.remove_task, hp, removeFirstById_first h tid l1 r l2 hno hr]
  · intro h tid p hno
    rw [Project.remove_task, removeFirstById_no_match h tid p.tasks hno]

/-- Claim C4 witness: removing id `a` from the concrete project deletes
exactly the first task and keeps the rest in order; removing the
unknown id `zz` leaves the project unchanged. -/
theorem remove_task_witness :
    Project.remove_task exHeap "a" exProject = { exProject with tasks := [1] } ∧
    Project.remove_task exHeap "zz" exProject = exProject :=
  ⟨remove_task_spec.1 exHeap "a" exProject [] [1] 0 (by decide)
      (by intro r' hr'; cases hr') (by decide),
   remove_task_spec.2 exHeap "zz" exProject (by decide)⟩

/-- Claim C5: starting from a project whose task-list object is empty,
adding N tasks via `add_task` and then reading the `tasks` accessor
yields a list object holding exactly those N tasks in insertion order
(so of length N); that object is a defensive copy — a freshly allocated
list object, a reference distinct from the internal one — so any
in-place mutation `v` of the returned list object leaves the project's
internal task sequence and order unchanged. -/
theorem add_task_snapshot_spec (s0 : ListStore) (p : ProjectObj)
    (hvalid : p.tasks < s0.cells.length)
    (hempty : ListStore.read s0 p.tasks = [])
    (rs : List TaskRef) :
    ListStore.read (ProjectObj.tasks_copy (addTasks s0 p rs) p).2
        (ProjectObj.tasks_copy (addTasks s0 p rs) p).1 = rs ∧
    (ListStore.read (ProjectObj.tasks_copy (addTasks s0 p rs) p).2
        (ProjectObj.tasks_copy (addTasks s0 p rs) p).1).length = rs.length ∧
    (ProjectObj.tasks_copy (addTasks s0 p rs) p).1 ≠ p.tasks ∧
    ∀ v : List TaskRef,
      ListStore.read
        (ListStore.write (ProjectObj.tasks_copy (addTasks s0 p rs) p).2
          (ProjectObj.tasks_copy (addTasks s0 p rs) p).1 v)
        p.tasks = rs := by
  obtain ⟨hread, hlen⟩ := addTasks_read p rs s0 hvalid
  have hread1 : (addTasks s0 p rs).read p.tasks = rs := by
    rw [hread, hempty, List.nil_append]
  have hv1 : p.tasks < (addTasks s0 p rs).cells.length := hlen ▸ hvalid
  have h1 : ListStore.read (ProjectObj.tasks_copy (addTasks s0 p rs) p).2
      (ProjectObj.tasks_copy (addTasks s0 p rs) p).1 = rs := by
    show ((addTasks s0 p rs).cells
        ++ [(addTasks s0 p rs).read p.tasks]).getD
          (addTasks s0 p rs).cells.length [] = rs
    rw [getD_concat_last, hread1]
  refine ⟨h1, by rw [h1], ?_, ?_⟩
  · show (addTasks s0 p rs).cells.length ≠ p.tasks
    exact (Nat.ne_of_lt hv1).symm
  · intro v
    have hne : p.tasks ≠ (ProjectObj.tasks_copy (addTasks s0 p rs) p).1 :=
      Nat.ne_of_lt hv1
    rw [ListStore.read_write_other _ _ _ _ hne]
    show ((addTasks s0 p rs).cells
        ++ [(addTasks s0 p rs).read p.tasks]).getD p.tasks [] = rs
    rw [getD_append_front _ _ _ _ hv1]
    exact hread1

/-- Claim C5 witness: adding the two tasks 5 and 7 to the concrete empty
project and reading the `tasks` accessor yields the fresh list object
`[5, 7]`, and after the caller mutates that returned object in place
(overwriting it with `[9]`), the project's internal task sequence is
still `[5, 7]`. -/
theorem add_task_snapshot_witness :
    ListStore.read
        (ProjectObj.tasks_copy (addTasks exStore exProjectObj [5, 7]) exProjectObj).2
        (ProjectObj.tasks_copy (addTasks exStore exProjectObj [5, 7]) exProjectObj).1
      = [5, 7] ∧
    ListStore.read
        (ListStore.write
          (ProjectObj.tasks_copy (addTasks exStore exProjectObj [5, 7]) exProjectObj).2
          (ProjectObj.tasks_copy (addTasks exStore exProjectObj [5, 7]) exProjectObj).1
          [9])
        exProjectObj.tasks
      = [5, 7] :=
  ⟨(add_task_snapshot_spec exStore exProjectObj (by decide) (by decide) [5, 7]).1,
   (add_task_snapshot_spec exStore exProjectObj (by decide) (by decide)
      [5, 7]).2.2.2 [9]⟩

/-- Claim C6: any positive number of `mark_as_done()` calls followed by
any positive number of `reopen()` calls leaves the task with
`is_done = false` and `completed_at = None`. -/
theorem mark_reopen_spec (t : Task) (marks : List Nat) (_hm : marks ≠ [])
    (n : Nat) (hn : 0 < n) :
    (Task.reopen^[n]
        (marks.foldl (fun a now => Task.mark_as_done now a) t)).is_done
      = false ∧
    (Task.reopen^[n]
        (marks.foldl (fun a now => Task.mark_as_done now a) t)).completed_at
      = none := by
  cases n with
  | zero => exact absurd hn (by decide)
  | succ m =>
    rw [Function.iterate_succ_apply]
    exact reopen_iter_clears m _

/-- Claim C6 witness: marking `tB` done at times 3 and 4 and then
reopening twice clears the done flag and the completion time. -/
theorem mark_reopen_witness :
    (Task.reopen^[2]
        ([3, 4].foldl (fun a now => Task.mark_as_done now a) tB)).is_done
      = false ∧
    (Task.reopen^[2]
        ([3, 4].foldl (fun a now => Task.mark_as_done now a) tB)).completed_at
      = none :=
  mark_reopen_spec tB [3, 4] (by decide) 2 (by decide)

/-- Claim C8: `get_tasks_by_priority(p)` returns exactly the tasks of
`get_all_tasks()` whose priority equals `p`, in the same order (a
sublist of `get_all_tasks()`); a priority matching no task — in
particular any unrecognized string — yields the empty sequence, and the
function is total (never an error). -/
theorem get_tasks_by_priority_spec (h : Heap) (u : User) (pr : String) :
    (∀ r, r ∈ User.get_tasks_by_priority h pr u ↔
        r ∈ User.get_all_tasks u ∧ (h r).priority = pr) ∧
    List.Sublist (User.get_tasks_by_priority h pr u) (User.get_all_tasks u) ∧
    ((∀ r ∈ User.get_all_tasks u, (h r).priority ≠ pr) →
      User.get_tasks_by_priority h pr u = []) := by
  refine ⟨?_, ?_, ?_⟩
  · intro r
    simp [User.get_tasks_by_priority, List.mem_filter]
  · exact List.filter_sublist _
  · intro hall
    rw [User.get_tasks_by_priority, List.filter_eq_nil_iff]
    intro r hr
    simp [hall r hr]

/-- Claim C8 witness: in the concrete state (priorities `High` and
`Low`), filtering by `High` keeps exactly task 0, and the unrecognized
priority `Urgent` yields the empty sequence. -/
theorem get_tasks_by_priority_witness :
    0 ∈ User.get_tasks_by_priority exHeap "High" exUser ∧
    User.get_tasks_by_priority exHeap "Urgent" exUser = [] :=
  ⟨((get_tasks_by_priority_spec exHeap exUser "High").1 0).mpr
      ⟨by decide, by decide⟩,
   (get_tasks_by_priority_spec exHeap exUser "Urgent").2.2 (by decide)⟩

/-- Claim C9: each task mutator touches only its target fields:
`mark_as_done` and `reopen` leave everything but `is_done` and
`completed_at` unchanged; `change_description` only changes
`description`; `set_priority` changes at most `priority` (and on failure
nothing); `update_due_date` only changes `due_date`; `id`, `created_at`
and `title` are never changed. -/
theorem task_mutator_frame_spec (t : Task) (now : Nat) (d : String)
    (p : String) (dd : Option Nat) :
    ((Task.mark_as_done now t).id = t.id ∧
     (Task.mark_as_done now t).title = t.title ∧
     (Task.mark_as_done now t).description = t.description ∧
     (Task.mark_as_done now t).priority = t.priority ∧
     (Task.mark_as_done now t).due_date = t.due_date ∧
     (Task.mark_as_done now t).created_at = t.created_at) ∧
    ((Task.reopen t).id = t.id ∧
     (Task.reopen t).title = t.title ∧
     (Task.reopen t).description = t.description ∧
     (Task.reopen t).priority = t.priority ∧
     (Task.reopen t).due_date = t.due_date ∧
     (Task.reopen t).created_at = t.created_at) ∧
    ((Task.change_description d t).id = t.id ∧
     (Task.change_description d t).title = t.title ∧
     (Task.change_description d t).is_done = t.is_done ∧
     (Task.change_description d t).priority = t.priority ∧
     (Task.change_description d t).due_date = t.due_date ∧
     (Task.change_description d t).created_at = t.created_at ∧
     (Task.change_description d t).completed_at = t.completed_at) ∧
    ((Task.set_priority p t).1.id = t.id ∧
     (Task.set_priority p t).1.title = t.title ∧
     (Task.set_priority p t).1.description = t.description ∧
     (Task.set_priority p t).1.is_done = t.is_done ∧
     (Task.set_priority p t).1.due_date = t.due_date ∧
     (Task.set_priority p t).1.created_at = t.created_at ∧
     (Task.set_priority p t).1.completed_at = t.completed_at) ∧
    ((Task.update_due_date dd t).id = t.id ∧
     (Task.update_due_date dd t).title = t.title ∧
     (Task.update_due_date dd t).description = t.description ∧
     (Task.update_due_date dd t).is_done = t.is_done ∧
     (Task.update_due_date dd t).priority = t.priority ∧
     (Task.update_due_date dd t).created_at = t.created_at ∧
     (Task.update_due_date dd t).completed_at = t.completed_at) := by
  refine ⟨⟨rfl, rfl, rfl, rfl, rfl, rfl⟩,
    ⟨rfl, rfl, rfl, rfl, rfl, rfl⟩,
    ⟨rfl, rfl, rfl, rfl, rfl, rfl, rfl⟩, ?_,
    ⟨rfl, rfl, rfl, rfl, rfl, rfl, rfl⟩⟩
  unfold Task.set_priority
  split <;> exact ⟨rfl, rfl, rfl, rfl, rfl, rfl, rfl⟩

/-- Claim C10: `get_task_by_id` returns `None` iff no owned task has the
given id; a returned task is the internal object itself — its reference
is in the project's task list and has the sought id — so an in-place
mutation through it (here `mark_as_done`) is visible to every subsequent
query on the project and on an owning user. -/
theorem get_task_by_id_alias_spec (h : Heap) (tid : String) (p : Project) :
    (Project.get_task_by_id h tid p = none ↔
      ∀ r ∈ p.tasks, (h r).id ≠ tid) ∧
    (∀ r, Project.get_task_by_id h tid p = some r →
      r ∈ p.tasks ∧ (h r).id = tid ∧
      ∀ now : Nat,
        Heap.write h r (Task.mark_as_done now (h r)) r
          = Task.mark_as_done now (h r) ∧
        r ∈ Project.get_tasks_by_status
          (Heap.write h r (Task.mark_as_done now (h r))) true p ∧
        ∀ u : User, p ∈ u.projects →
          r ∈ User.get_tasks_by_priority
            (Heap.write h r (Task.mark_as_done now (h r)))
            (h r).priority u) := by
  constructor
  · rw [Project.get_task_by_id, List.find?_eq_none]
    constructor
    · intro hnone r hr
      have := hnone r hr
      simpa using this
    · intro hno r hr
      simpa using hno r hr
  · intro r hfind
    have hmem : r ∈ p.tasks := List.mem_of_find?_eq_some hfind
    have hid : (h r).id = tid := by
      have := List.find?_some hfind
      simpa using this
    refine ⟨hmem, hid, fun now => ⟨by simp [Heap.write], ?_, ?_⟩⟩
    · rw [Project.get_tasks_by_status, List.mem_filter]
      exact ⟨hmem, by simp [Heap.write, Task.mark_as_done]⟩
    · intro u hu
      rw [User.get_tasks_by_priority, List.mem_filter]
      exact ⟨mem_get_all_tasks_of_mem hu hmem,
        by simp [Heap.write, Task.mark_as_done]⟩

/-- Claim C10 witness: in the concrete state, looking up id `b` returns
the owned task at reference 1; marking it done through that reference is
visible in the project's done-task query and in the owning user's
priority query; looking up the unknown id `zz` returns `None`. -/
theorem get_task_by_id_alias_witness :
    (1 ∈ Project.get_tasks_by_status
        (Heap.write exHeap 1 (Task.mark_as_done 9 (exHeap 1))) true exProject ∧
     1 ∈ User.get_tasks_by_priority
        (Heap.write exHeap 1 (Task.mark_as_done 9 (exHeap 1)))
        (exHeap 1).priority exUser) ∧
    Project.get_task_by_id exHeap "zz" exProject = none := by
  refine ⟨⟨?_, ?_⟩, ?_⟩
  · exact ((((get_task_by_id_alias_spec exHeap "b" exProject).2 1
      (by decide)).2.2 9)).2.1
  · exact ((((get_task_by_id_alias_spec exHeap "b" exProject).2 1
      (by decide)).2.2 9)).2.2 exUser (by decide)
  · exact (get_task_by_id_alias_spec exHeap "zz" exProject).1.mpr (by decide)

end TaskTracker
